import Mathlib

/-!
Shallow embedding of `src/scene/mesh.rs` (the rg3d mesh scene-graph node):
the mesh data model, its lazily cached local bounding box, the rigid and
skinned world-space bounding boxes, the frustum visibility test, and the
builder. Scalar arithmetic is modelled over the rationals; the interior
mutability of the two `Cell` fields is modelled by explicit state passing
(methods that may write a cell return the updated `Mesh` alongside their
result); the unchecked slice indexing of the skinned path is modelled with
`Option` (`none` models the out-of-bounds panic).
-/

/-- Modelled from the spec: the three-component vector type `Vec3` of the
math library (external collaborator), with rational components. -/
structure Vec3 where
  x : ℚ
  y : ℚ
  z : ℚ
deriving DecidableEq, Repr

/-- The zero vector, `Vec3::ZERO`. -/
def Vec3.ZERO : Vec3 := ⟨0, 0, 0⟩

/-- Componentwise vector addition (`+=` accumulation in the skinned path). -/
def Vec3.add (a b : Vec3) : Vec3 := ⟨a.x + b.x, a.y + b.y, a.z + b.z⟩

instance : Add Vec3 := ⟨Vec3.add⟩

/-- Uniform scaling, `Vec3::scale`. -/
def Vec3.scale (v : Vec3) (k : ℚ) : Vec3 := ⟨v.x * k, v.y * k, v.z * k⟩

/-- Modelled from the spec: the 4×4 affine transform matrix `Mat4` of the
math library (external collaborator), kept as its 3×3 linear block plus the
translation column. -/
structure Mat4 where
  m00 : ℚ
  m01 : ℚ
  m02 : ℚ
  m10 : ℚ
  m11 : ℚ
  m12 : ℚ
  m20 : ℚ
  m21 : ℚ
  m22 : ℚ
  tx : ℚ
  ty : ℚ
  tz : ℚ
deriving DecidableEq, Repr

/-- The identity transform. -/
def Mat4.identity : Mat4 := ⟨1, 0, 0, 0, 1, 0, 0, 0, 1, 0, 0, 0⟩

/-- A pure translation transform (used by concrete witness scenes). -/
def Mat4.translate (t : Vec3) : Mat4 := ⟨1, 0, 0, 0, 1, 0, 0, 0, 1, t.x, t.y, t.z⟩

/-- Modelled from the spec: `Mat4::transform_vector` applies the affine
transform to a point (linear block times the vector, plus translation). -/
def Mat4.transform_vector (m : Mat4) (v : Vec3) : Vec3 :=
  ⟨m.m00 * v.x + m.m01 * v.y + m.m02 * v.z + m.tx,
   m.m10 * v.x + m.m11 * v.y + m.m12 * v.z + m.ty,
   m.m20 * v.x + m.m21 * v.y + m.m22 * v.z + m.tz⟩

/-- Modelled from the spec: matrix product `a * b` of two affine transforms,
i.e. the composition applying `b` first and `a` second. -/
def Mat4.mul (a b : Mat4) : Mat4 :=
  ⟨a.m00 * b.m00 + a.m01 * b.m10 + a.m02 * b.m20,
   a.m00 * b.m01 + a.m01 * b.m11 + a.m02 * b.m21,
   a.m00 * b.m02 + a.m01 * b.m12 + a.m02 * b.m22,
   a.m10 * b.m00 + a.m11 * b.m10 + a.m12 * b.m20,
   a.m10 * b.m01 + a.m11 * b.m11 + a.m12 * b.m21,
   a.m10 * b.m02 + a.m11 * b.m12 + a.m12 * b.m22,
   a.m20 * b.m00 + a.m21 * b.m10 + a.m22 * b.m20,
   a.m20 * b.m01 + a.m21 * b.m11 + a.m22 * b.m21,
   a.m20 * b.m02 + a.m21 * b.m12 + a.m22 * b.m22,
   a.m00 * b.tx + a.m01 * b.ty + a.m02 * b.tz + a.tx,
   a.m10 * b.tx + a.m11 * b.ty + a.m12 * b.tz + a.ty,
   a.m20 * b.tx + a.m21 * b.ty + a.m22 * b.tz + a.tz⟩

/-- Modelled from the spec: `AxisAlignedBoundingBox` (external primitive)
with min/max corners; the empty box (its `Default`) is the identity for
point insertion. -/
inductive AxisAlignedBoundingBox where
  | empty : AxisAlignedBoundingBox
  | box (mn mx : Vec3) : AxisAlignedBoundingBox
deriving DecidableEq, Repr

/-- Modelled from the spec: `add_point` grows the box to contain the point;
inserting into the empty box yields the degenerate box at that point. -/
def AxisAlignedBoundingBox.add_point :
    AxisAlignedBoundingBox → Vec3 → AxisAlignedBoundingBox
  | .empty, p => .box p p
  | .box mn mx, p =>
      .box ⟨min mn.x p.x, min mn.y p.y, min mn.z p.z⟩
           ⟨max mx.x p.x, max mx.y p.y, max mx.z p.z⟩

/-- Modelled from the spec: surface color (opaque to this core; `setColor`
broadcasts it and it does not affect geometry). -/
abbrev Color := ℕ

/-- Modelled from the spec: one vertex of a surface: a local-space position,
a small list of bone indices and a parallel list of bone weights (indices
index into the surface's own bone-handle list). -/
structure Vertex where
  position : Vec3
  bone_indices : List ℕ
  bone_weights : List ℚ
deriving DecidableEq, Repr

/-- Modelled from the spec: the shared, lockable surface data; only the
ordered vertex list is visible to this core (`get_vertices`). -/
structure SurfaceSharedData where
  vertices : List Vertex
deriving DecidableEq, Repr

/-- Modelled from the spec: a `Surface`: shared vertex data, an ordered list
of bone-node handles into the scene graph (empty means rigid), and a color. -/
structure Surface where
  data : SurfaceSharedData
  bones : List ℕ
  color : Color
deriving DecidableEq, Repr

/-- Modelled from the spec: `Surface::set_color` stores the color on the
surface and touches no geometry. -/
def Surface.set_color (s : Surface) (c : Color) : Surface := { s with color := c }

/-- Modelled from the spec: the scene-graph view of one bone node: its world
transform, its fixed inverse bind-pose transform, and its world position. -/
structure GraphNode where
  global_transform : Mat4
  inv_bind_pose_transform : Mat4
  global_position : Vec3
deriving DecidableEq, Repr

/-- Modelled from the spec: the scene graph, a handle-indexed node lookup
assumed total and infallible for valid handles. -/
def Graph : Type := ℕ → GraphNode

/-- Modelled from the spec: the frustum test primitive, abstracted by its two
Boolean queries: box-under-transform intersection and point containment. -/
structure Frustum where
  is_intersects_aabb_transform : AxisAlignedBoundingBox → Mat4 → Bool
  is_contains_point : Vec3 → Bool

/-- The mesh node of `mesh.rs`: ordered surfaces, the cached local-space
bounding box and its dirty flag (both `Cell`s in the source), and the world
transform inherited from `Base` (read by `global_transform()`). -/
structure Mesh where
  surfaces : List Surface
  bounding_box_cell : AxisAlignedBoundingBox
  bounding_box_dirty : Bool
  global_transform : Mat4
deriving DecidableEq, Repr

/-- `Mesh::default`: no surfaces, default (empty) box, dirty flag set. -/
def Mesh.default_mesh (t : Mat4) : Mesh :=
  { surfaces := []
    bounding_box_cell := AxisAlignedBoundingBox.empty
    bounding_box_dirty := true
    global_transform := t }

/-- `Mesh::clear_surfaces`: drop every surface and set the dirty flag. -/
def Mesh.clear_surfaces (m : Mesh) : Mesh :=
  { m with surfaces := [], bounding_box_dirty := true }

/-- `Mesh::add_surface`: push a surface and set the dirty flag. -/
def Mesh.add_surface (m : Mesh) (s : Surface) : Mesh :=
  { m with surfaces := m.surfaces ++ [s], bounding_box_dirty := true }

/-- `Mesh::set_color`: apply the color to every surface, in order. -/
def Mesh.set_color (m : Mesh) (c : Color) : Mesh :=
  { m with surfaces := m.surfaces.map (fun s => s.set_color c) }

/-- The per-surface body of the recomputation loop inside
`Mesh::bounding_box`: lock the surface data and insert the raw position of
each vertex. -/
def localStep (bb : AxisAlignedBoundingBox) (s : Surface) : AxisAlignedBoundingBox :=
  s.data.vertices.foldl (fun bb v => bb.add_point v.position) bb

/-- The recomputation loop inside `Mesh::bounding_box`: start from the
default box, and for each surface in stored order insert the raw position of
each of its vertices. -/
def localBoundingBox (surfaces : List Surface) : AxisAlignedBoundingBox :=
  surfaces.foldl localStep AxisAlignedBoundingBox.empty

/-- `Mesh::bounding_box`: if the dirty flag is set, recompute the local box,
store it in the cell and clear the flag; then return the cell contents. The
returned `Mesh` carries the cell updates. -/
def Mesh.bounding_box (m : Mesh) : AxisAlignedBoundingBox × Mesh :=
  if m.bounding_box_dirty then
    let bb := localBoundingBox m.surfaces
    (bb, { m with bounding_box_cell := bb, bounding_box_dirty := false })
  else
    (m.bounding_box_cell, m)

/-- The per-surface body of the `Mesh::world_bounding_box` loop (also the
rigid path of `Mesh::full_world_bounding_box`, which repeats it verbatim):
insert each vertex position transformed by the mesh world transform. -/
def worldStep (m : Mesh) (bb : AxisAlignedBoundingBox) (s : Surface) : AxisAlignedBoundingBox :=
  s.data.vertices.foldl
    (fun bb v => bb.add_point (m.global_transform.transform_vector v.position))
    bb

/-- `Mesh::world_bounding_box`: recomputed from scratch on every call, each
vertex position transformed by the mesh world transform; no cell is written. -/
def Mesh.world_bounding_box (m : Mesh) : AxisAlignedBoundingBox :=
  m.surfaces.foldl (worldStep m) AxisAlignedBoundingBox.empty

/-- The per-surface precomputation in `Mesh::full_world_bounding_box`: one
skinning matrix per bone handle, the bone world transform composed with its
inverse bind-pose transform. -/
def skinMatrices (g : Graph) (bones : List ℕ) : List Mat4 :=
  bones.map (fun b => (g b).global_transform.mul (g b).inv_bind_pose_transform)

/-- One accumulation step of the per-vertex loop in the skinned path: add the
bone matrix applied to the local position, scaled by the weight. The
unchecked `bone_matrices[bone_index as usize]` indexing is modelled by
`List.get?`: `none` models the out-of-bounds panic. -/
def skinAccum (bone_matrices : List Mat4) (pos : Vec3) (acc : Option Vec3)
    (p : ℕ × ℚ) : Option Vec3 :=
  match acc with
  | none => none
  | some a =>
    match bone_matrices.get? p.1 with
    | none => none
    | some m => some (a + (m.transform_vector pos).scale p.2)

/-- The per-vertex inner loop of the skinned path: starting from the zero
vector, accumulate over the zipped (bone index, bone weight) pairs. -/
def skinnedVertexPosition (bone_matrices : List Mat4) (v : Vertex) : Option Vec3 :=
  (v.bone_indices.zip v.bone_weights).foldl
    (skinAccum bone_matrices v.position) (some Vec3.ZERO)

/-- Insertion of one skinned vertex into the box being accumulated (the body
of the vertex loop in the skinned path). -/
def skinnedInsert (bone_matrices : List Mat4) (acc : Option AxisAlignedBoundingBox)
    (v : Vertex) : Option AxisAlignedBoundingBox :=
  match acc with
  | none => none
  | some bb =>
    match skinnedVertexPosition bone_matrices v with
    | none => none
    | some p => some (bb.add_point p)

/-- The per-surface body of `Mesh::full_world_bounding_box`: the rigid path
(no bones) repeats the `world_bounding_box` loop body; the skinned path
precomputes the skinning matrices once for the surface, then inserts each
vertex's blended position. -/
def fullWorldStep (m : Mesh) (g : Graph) (acc : Option AxisAlignedBoundingBox)
    (s : Surface) : Option AxisAlignedBoundingBox :=
  match acc with
  | none => none
  | some bb =>
    if s.bones.isEmpty then
      some (worldStep m bb s)
    else
      let bone_matrices := skinMatrices g s.bones
      s.data.vertices.foldl (skinnedInsert bone_matrices) (some bb)

/-- `Mesh::full_world_bounding_box`: fold the per-surface step over the
surfaces in stored order; `none` models the panic of the skinned path. -/
def Mesh.full_world_bounding_box (m : Mesh) (g : Graph) : Option AxisAlignedBoundingBox :=
  m.surfaces.foldl (fullWorldStep m g) (some AxisAlignedBoundingBox.empty)

/-- The bone fallback loop of `Mesh::is_intersect_frustum`: scan every bone
of every surface, in stored order, for a world position inside the frustum. -/
def boneFallback (m : Mesh) (g : Graph) (f : Frustum) : Bool :=
  m.surfaces.any (fun s => s.bones.any (fun b => f.is_contains_point (g b).global_position))

/-- `Mesh::is_intersect_frustum`: first test the (lazily recomputed) local
bounding box under the mesh world transform; on failure fall back to testing
each bone world position. The returned `Mesh` carries the cache writes done
by the internal `bounding_box()` call. -/
def Mesh.is_intersect_frustum (m : Mesh) (g : Graph) (f : Frustum) : Bool × Mesh :=
  let r := m.bounding_box
  if f.is_intersects_aabb_transform r.1 m.global_transform then
    (true, r.2)
  else
    (boneFallback m g f, r.2)

/-- `BaseBuilder` (external): all this core consumes from the built `Base` is
the world transform. -/
structure BaseBuilder where
  global_transform : Mat4
deriving DecidableEq, Repr

/-- `MeshBuilder`: a base-node builder plus the accumulated surfaces. -/
structure MeshBuilder where
  base_builder : BaseBuilder
  surfaces : List Surface

/-- `MeshBuilder::with_surfaces`. -/
def MeshBuilder.with_surfaces (b : MeshBuilder) (surfaces : List Surface) : MeshBuilder :=
  { b with surfaces := surfaces }

/-- `MeshBuilder::build`: the fresh mesh starts with the default (empty)
cached box and the dirty flag set. -/
def MeshBuilder.build (b : MeshBuilder) : Mesh :=
  { surfaces := b.surfaces
    bounding_box_cell := AxisAlignedBoundingBox.empty
    bounding_box_dirty := true
    global_transform := b.base_builder.global_transform }

/-- Instrumented variant of `Mesh::bounding_box` counting vertex reads (one
per vertex visited by the recomputation loop, zero on a cache hit), mirroring
the instrumented surface-data accessor the spec asks tests to use. -/
def Mesh.bounding_box_counting (m : Mesh) : (AxisAlignedBoundingBox × Mesh) × ℕ :=
  if m.bounding_box_dirty then
    let bb := localBoundingBox m.surfaces
    ((bb, { m with bounding_box_cell := bb, bounding_box_dirty := false }),
     (m.surfaces.map (fun s => s.data.vertices.length)).sum)
  else
    ((m.bounding_box_cell, m), 0)

/-- Instrumented scan of one surface's bone list in the frustum fallback:
returns whether some bone position is inside the frustum together with the
number of bone point tests performed (the loop returns at the first hit). -/
def boneScanCount (g : Graph) (f : Frustum) : List ℕ → Bool × ℕ
  | [] => (false, 0)
  | b :: rest =>
    if f.is_contains_point (g b).global_position then (true, 1)
    else
      let r := boneScanCount g f rest
      (r.1, r.2 + 1)

/-- Instrumented scan of the surfaces in the frustum fallback loop. -/
def surfaceScanCount (g : Graph) (f : Frustum) : List Surface → Bool × ℕ
  | [] => (false, 0)
  | s :: rest =>
    let r := boneScanCount g f s.bones
    if r.1 then (true, r.2)
    else
      let q := surfaceScanCount g f rest
      (q.1, r.2 + q.2)

/-- Instrumented variant of `Mesh::is_intersect_frustum` counting bone point
tests: the early return on the box test performs none. -/
def Mesh.is_intersect_frustum_counting (m : Mesh) (g : Graph) (f : Frustum) : Bool × ℕ :=
  let r := m.bounding_box
  if f.is_intersects_aabb_transform r.1 m.global_transform then (true, 0)
  else surfaceScanCount g f m.surfaces

/-- The local bounding box as the spec words it: starting from the empty box,
insert the raw local-space position of every vertex of every surface, in
stored surface order, with no bone influence and no world transform. -/
def specLocalBoundingBox (surfaces : List Surface) : AxisAlignedBoundingBox :=
  ((surfaces.flatMap fun s => s.data.vertices).map Vertex.position).foldl
    AxisAlignedBoundingBox.add_point AxisAlignedBoundingBox.empty

/-- The skinned vertex position as the spec words it: the sum, over the
vertex's (bone index, bone weight) pairs, of the skinning matrix for that
bone index applied to the local position and scaled by the weight (total,
since the spec assumes indices in range). -/
def specSkinnedPosition (bone_matrices : List Mat4) (v : Vertex) : Vec3 :=
  (v.bone_indices.zip v.bone_weights).foldl
    (fun acc p =>
      acc + ((bone_matrices.getD p.1 Mat4.identity).transform_vector v.position).scale p.2)
    Vec3.ZERO

/-- The box described by the spec for an all-skinned mesh: for each surface,
insert every vertex's blended position computed from the per-surface skinning
matrices; the mesh world transform is never consulted. -/
def specSkinnedBoundingBox (surfaces : List Surface) (g : Graph) : AxisAlignedBoundingBox :=
  surfaces.foldl
    (fun bb s =>
      s.data.vertices.foldl
        (fun bb v => bb.add_point (specSkinnedPosition (skinMatrices g s.bones) v))
        bb)
    AxisAlignedBoundingBox.empty

/-- Bone-index validity for one surface: every bone index of every vertex is
strictly below the length of the surface's bone-handle list. -/
def BoneIndicesValid (s : Surface) : Prop :=
  ∀ v ∈ s.data.vertices, ∀ i ∈ v.bone_indices, i < s.bones.length

instance (s : Surface) : Decidable (BoneIndicesValid s) := by
  unfold BoneIndicesValid; infer_instance

/-- Cache coherence: a clean dirty flag means the cached box matches a fresh
recomputation from the current surfaces. -/
def CacheCoherent (m : Mesh) : Prop :=
  m.bounding_box_dirty = false → m.bounding_box_cell = localBoundingBox m.surfaces

instance (m : Mesh) : Decidable (CacheCoherent m) := by
  unfold CacheCoherent; infer_instance

/-- Mesh states reachable through the public operations: construction via
`MeshBuilder`, the mutators, and the methods that may write the cache cells
(`world_bounding_box` and `full_world_bounding_box` read `&self` and write no
cell, so they leave the state unchanged in this embedding). -/
inductive Reachable : Mesh → Prop where
  | build (b : MeshBuilder) : Reachable b.build
  | add_surface {m : Mesh} (s : Surface) : Reachable m → Reachable (m.add_surface s)
  | clear_surfaces {m : Mesh} : Reachable m → Reachable m.clear_surfaces
  | set_color {m : Mesh} (c : Color) : Reachable m → Reachable (m.set_color c)
  | bounding_box {m : Mesh} : Reachable m → Reachable (m.bounding_box).2
  | is_intersect_frustum {m : Mesh} (g : Graph) (f : Frustum) :
      Reachable m → Reachable (m.is_intersect_frustum g f).2

/-- A concrete rigid vertex used by witnesses. -/
def vtxA : Vertex := ⟨⟨1, 2, 3⟩, [], []⟩

/-- A concrete rigid surface used by witnesses. -/
def surfA : Surface := ⟨⟨[vtxA]⟩, [], 0⟩

/-- A concrete mesh with the dirty flag set. -/
def meshDirty : Mesh := ⟨[surfA], AxisAlignedBoundingBox.empty, true, Mat4.identity⟩

/-- A concrete mesh with a clean, coherent cache. -/
def meshClean : Mesh :=
  ⟨[surfA], AxisAlignedBoundingBox.box ⟨1, 2, 3⟩ ⟨1, 2, 3⟩, false, Mat4.identity⟩

/-- A concrete scene graph for witnesses: bone handle 1 is translated by
(10, 0, 0), every other handle sits at the origin with identity transforms. -/
def graphAB : Graph := fun n =>
  if n = 1 then ⟨Mat4.translate ⟨10, 0, 0⟩, Mat4.identity, ⟨10, 0, 0⟩⟩
  else ⟨Mat4.identity, Mat4.identity, Vec3.ZERO⟩

/-- A frustum whose two queries always succeed. -/
def frustumAll : Frustum := ⟨fun _ _ => true, fun _ => true⟩

/-- A frustum whose two queries always fail. -/
def frustumNone : Frustum := ⟨fun _ _ => false, fun _ => false⟩

/-- A skinned vertex at the origin, influenced half by bone 0 and half by
bone 1 (the skinning test vector of the spec). -/
def vtxSkin : Vertex := ⟨⟨0, 0, 0⟩, [0, 1], [1/2, 1/2]⟩

/-- A skinned surface with two bones (handles 0 and 1). -/
def surfSkin : Surface := ⟨⟨[vtxSkin]⟩, [0, 1], 0⟩

/-- A concrete skinned mesh. -/
def meshSkin : Mesh := ⟨[surfSkin], AxisAlignedBoundingBox.empty, true, Mat4.identity⟩

/-- A vertex away from the origin whose single bone weight is zero. -/
def vtxZeroW : Vertex := ⟨⟨5, 5, 5⟩, [0], [0]⟩

/-- A skinned surface holding only the zero-weight vertex. -/
def surfZeroW : Surface := ⟨⟨[vtxZeroW]⟩, [0], 0⟩

/-- A concrete mesh holding only the zero-weight skinned surface. -/
def meshZeroW : Mesh := ⟨[surfZeroW], AxisAlignedBoundingBox.empty, true, Mat4.identity⟩

/-- A concrete rigid mesh whose world transform is a translation. -/
def meshRigidMoved : Mesh :=
  ⟨[surfA], AxisAlignedBoundingBox.empty, true, Mat4.translate ⟨7, 0, 0⟩⟩

/-- A vertex whose bone index 5 overruns its surface's one-entry bone list. -/
def vtxBad : Vertex := ⟨⟨1, 1, 1⟩, [5], [1]⟩

/-- A skinned surface whose only vertex carries the out-of-range bone index. -/
def surfBad : Surface := ⟨⟨[vtxBad]⟩, [0], 0⟩

/-- A concrete mesh violating the bone-index precondition. -/
def meshBad : Mesh := ⟨[surfBad], AxisAlignedBoundingBox.empty, true, Mat4.identity⟩

lemma localBox_fold_flatten (surfaces : List Surface) (bb : AxisAlignedBoundingBox) :
    surfaces.foldl localStep bb
      = ((surfaces.flatMap fun s => s.data.vertices).map Vertex.position).foldl
          AxisAlignedBoundingBox.add_point bb := by
  induction surfaces generalizing bb with
  | nil => rfl
  | cons s rest ih =>
    rw [List.foldl_cons, List.flatMap_cons, List.map_append, List.foldl_append, ih]
    congr 1
    rw [List.foldl_map]
    rfl

lemma localBoundingBox_eq_spec (surfaces : List Surface) :
    localBoundingBox surfaces = specLocalBoundingBox surfaces :=
  localBox_fold_flatten surfaces AxisAlignedBoundingBox.empty

lemma localBoundingBox_set_color (surfaces : List Surface) (c : Color) :
    localBoundingBox (surfaces.map fun s => s.set_color c) = localBoundingBox surfaces := by
  unfold localBoundingBox
  rw [List.foldl_map]
  rfl

/-- C1: `bounding_box()` is the lazily cached local box: when the dirty flag
is set it recomputes the box by inserting the raw local position of every
vertex of every surface in stored order (no bones, no world transform),
stores it and clears the flag; otherwise it returns the cached value and
leaves the state untouched. -/
theorem claim_C1_bounding_box_lazy (m : Mesh) :
    (m.bounding_box_dirty = true →
      m.bounding_box =
        (specLocalBoundingBox m.surfaces,
         { m with bounding_box_cell := specLocalBoundingBox m.surfaces,
                  bounding_box_dirty := false })) ∧
    (m.bounding_box_dirty = false →
      m.bounding_box = (m.bounding_box_cell, m)) := by
  constructor <;> intro h <;>
    simp [Mesh.bounding_box, h, localBoundingBox_eq_spec]

/-- Witness for C1 at concrete dirty and clean meshes. -/
theorem claim_C1_bounding_box_lazy_witness :
    (Mesh.bounding_box meshDirty =
      (specLocalBoundingBox meshDirty.surfaces,
       { meshDirty with bounding_box_cell := specLocalBoundingBox meshDirty.surfaces,
                        bounding_box_dirty := false })) ∧
    Mesh.bounding_box meshClean = (meshClean.bounding_box_cell, meshClean) :=
  ⟨(claim_C1_bounding_box_lazy meshDirty).1 rfl,
   (claim_C1_bounding_box_lazy meshClean).2 rfl⟩

/-- C6: `add_surface` and `clear_surfaces` unconditionally set the dirty flag
and mutate only the surface list (cache cell and transform untouched);
`set_color` leaves the dirty flag and the cached box unchanged. -/
theorem claim_C6_mutators_and_set_color (m : Mesh) (s : Surface) (c : Color) :
    (m.add_surface s).bounding_box_dirty = true ∧
    (m.add_surface s).surfaces = m.surfaces ++ [s] ∧
    (m.add_surface s).bounding_box_cell = m.bounding_box_cell ∧
    (m.add_surface s).global_transform = m.global_transform ∧
    m.clear_surfaces.bounding_box_dirty = true ∧
    m.clear_surfaces.surfaces = [] ∧
    m.clear_surfaces.bounding_box_cell = m.bounding_box_cell ∧
    m.clear_surfaces.global_transform = m.global_transform ∧
    (m.set_color c).bounding_box_dirty = m.bounding_box_dirty ∧
    (m.set_color c).bounding_box_cell = m.bounding_box_cell ∧
    (m.set_color c).global_transform = m.global_transform := by
  simp [Mesh.add_surface, Mesh.clear_surfaces, Mesh.set_color]

/-- C7: two `bounding_box()` calls with no mutation in between return the
same value, the second leaves the state unchanged and performs zero vertex
reads (the instrumented variant, which agrees with the plain one, counts
none on a cache hit). -/
theorem claim_C7_bounding_box_idempotent (m : Mesh) :
    ((m.bounding_box).2.bounding_box).1 = (m.bounding_box).1 ∧
    ((m.bounding_box).2.bounding_box).2 = (m.bounding_box).2 ∧
    ((m.bounding_box).2.bounding_box_counting).2 = 0 ∧
    (m.bounding_box_counting).1 = m.bounding_box := by
  by_cases h : m.bounding_box_dirty <;>
    simp [Mesh.bounding_box, Mesh.bounding_box_counting, h]

lemma is_intersect_snd (m : Mesh) (g : Graph) (f : Frustum) :
    (m.is_intersect_frustum g f).2 = (m.bounding_box).2 := by
  unfold Mesh.is_intersect_frustum
  by_cases h : f.is_intersects_aabb_transform (m.bounding_box).1 m.global_transform <;>
    simp [h]

lemma cacheCoherent_bounding_box {m : Mesh} (ih : CacheCoherent m) :
    CacheCoherent (m.bounding_box).2 := by
  by_cases hm : m.bounding_box_dirty
  · intro _
    simp [Mesh.bounding_box, hm]
  · simp only [Mesh.bounding_box, hm, if_false]
    exact ih

/-- C4: in every mesh state reachable through the public operations, a clean
dirty flag implies the cached box equals a fresh recomputation from the
current surfaces. -/
theorem claim_C4_cache_coherence {m : Mesh} (h : Reachable m) : CacheCoherent m := by
  induction h with
  | build b => intro hd; simp [MeshBuilder.build] at hd
  | add_surface s _ _ => intro hd; simp [Mesh.add_surface] at hd
  | clear_surfaces _ _ => intro hd; simp [Mesh.clear_surfaces] at hd
  | set_color c _ ih =>
      intro hd
      simp only [Mesh.set_color] at hd ⊢
      rw [localBoundingBox_set_color]
      exact ih hd
  | bounding_box _ ih => exact cacheCoherent_bounding_box ih
  | is_intersect_frustum g f _ ih =>
      rw [is_intersect_snd]
      exact cacheCoherent_bounding_box ih

/-- Witness for C4: a mesh built, surfaced and queried through the public
operations is cache coherent. -/
theorem claim_C4_cache_coherence_witness :
    CacheCoherent ((MeshBuilder.build ⟨⟨Mat4.identity⟩, [surfA]⟩).bounding_box).2 :=
  claim_C4_cache_coherence
    (Reachable.bounding_box (Reachable.build ⟨⟨Mat4.identity⟩, [surfA]⟩))

/-- C10: `is_intersect_frustum` calls `bounding_box()` internally, so (on a
coherent mesh) after either call the dirty flag is clear and the cell holds
the freshly computed local box, while surfaces and transform are untouched;
the two calls leave the mesh in the same state. (`world_bounding_box` and
`full_world_bounding_box` write no cell, which the embedding reflects by
typing them as pure functions of the mesh.) -/
theorem claim_C10_visibility_cache_side_effect (m : Mesh) (g : Graph) (f : Frustum)
    (hc : CacheCoherent m) :
    (m.is_intersect_frustum g f).2 = (m.bounding_box).2 ∧
    (m.is_intersect_frustum g f).2.bounding_box_dirty = false ∧
    (m.is_intersect_frustum g f).2.bounding_box_cell = localBoundingBox m.surfaces ∧
    (m.is_intersect_frustum g f).2.surfaces = m.surfaces ∧
    (m.is_intersect_frustum g f).2.global_transform = m.global_transform ∧
    (m.bounding_box).2.bounding_box_dirty = false ∧
    (m.bounding_box).2.bounding_box_cell = localBoundingBox m.surfaces := by
  rw [is_intersect_snd]
  by_cases hm : m.bounding_box_dirty
  · simp [Mesh.bounding_box, hm]
  · have hcell := hc (by simpa using hm)
    simp [Mesh.bounding_box, hm, hcell]

/-- Witness for C10 at a concrete coherent mesh. -/
theorem claim_C10_visibility_cache_side_effect_witness :
    (meshClean.is_intersect_frustum graphAB frustumNone).2 = (meshClean.bounding_box).2 ∧
    (meshClean.is_intersect_frustum graphAB frustumNone).2.bounding_box_dirty = false ∧
    (meshClean.is_intersect_frustum graphAB frustumNone).2.bounding_box_cell
      = localBoundingBox meshClean.surfaces ∧
    (meshClean.is_intersect_frustum graphAB frustumNone).2.surfaces = meshClean.surfaces ∧
    (meshClean.is_intersect_frustum graphAB frustumNone).2.global_transform
      = meshClean.global_transform ∧
    (meshClean.bounding_box).2.bounding_box_dirty = false ∧
    (meshClean.bounding_box).2.bounding_box_cell = localBoundingBox meshClean.surfaces :=
  claim_C10_visibility_cache_side_effect meshClean graphAB frustumNone (by decide)

lemma boneScanCount_fst (g : Graph) (f : Frustum) (l : List ℕ) :
    (boneScanCount g f l).1 = l.any (fun b => f.is_contains_point (g b).global_position) := by
  induction l with
  | nil => rfl
  | cons b rest ih =>
    by_cases hb : f.is_contains_point (g b).global_position <;>
      simp [boneScanCount, hb, ih]

lemma surfaceScanCount_fst (g : Graph) (f : Frustum) (l : List Surface) :
    (surfaceScanCount g f l).1
      = l.any (fun s => s.bones.any fun b => f.is_contains_point (g b).global_position) := by
  induction l with
  | nil => rfl
  | cons s rest ih =>
    by_cases hs : (boneScanCount g f s.bones).1 <;>
      simp only [surfaceScanCount, hs, if_true, if_false, List.any_cons, ih] <;>
      rw [← boneScanCount_fst g f s.bones] <;> simp [hs]

/-- C3: the frustum test returns the disjunction of the transformed-box test
and the any-bone-inside fallback (so it is false exactly when both fail);
the instrumented variant agrees with it and performs zero bone point tests
whenever the box test already succeeds. -/
theorem claim_C3_frustum_visibility (m : Mesh) (g : Graph) (f : Frustum) :
    ((m.is_intersect_frustum g f).1
        = (f.is_intersects_aabb_transform (m.bounding_box).1 m.global_transform
            || boneFallback m g f)) ∧
    ((m.is_intersect_frustum g f).1 = false ↔
      (f.is_intersects_aabb_transform (m.bounding_box).1 m.global_transform = false ∧
       boneFallback m g f = false)) ∧
    ((m.is_intersect_frustum g f).1 = (m.is_intersect_frustum_counting g f).1) ∧
    (f.is_intersects_aabb_transform (m.bounding_box).1 m.global_transform = true →
      (m.is_intersect_frustum_counting g f).2 = 0) := by
  by_cases hb : f.is_intersects_aabb_transform (m.bounding_box).1 m.global_transform <;>
    simp [Mesh.is_intersect_frustum, Mesh.is_intersect_frustum_counting, hb,
      boneFallback, surfaceScanCount_fst]

/-- Witness for C3 at a concrete mesh whose box test succeeds: the result is
true and no bone point test is performed. -/
theorem claim_C3_frustum_visibility_witness :
    ((meshClean.is_intersect_frustum graphAB frustumAll).1
        = (frustumAll.is_intersects_aabb_transform (meshClean.bounding_box).1
            meshClean.global_transform || boneFallback meshClean graphAB frustumAll)) ∧
    (meshClean.is_intersect_frustum_counting graphAB frustumAll).2 = 0 :=
  ⟨(claim_C3_frustum_visibility meshClean graphAB frustumAll).1,
   (claim_C3_frustum_visibility meshClean graphAB frustumAll).2.2.2 (by decide)⟩

lemma Vec3.add_def (a b : Vec3) : a + b = ⟨a.x + b.x, a.y + b.y, a.z + b.z⟩ := rfl

lemma Vec3.add_ZERO (v : Vec3) : v + Vec3.ZERO = v := by
  cases v
  show Vec3.add _ _ = _
  simp [Vec3.add, Vec3.ZERO]

lemma Vec3.scale_zero (v : Vec3) : v.scale 0 = Vec3.ZERO := by
  simp [Vec3.scale, Vec3.ZERO]

lemma list_get?_getD (matrices : List Mat4) (i : ℕ) (hi : i < matrices.length) :
    matrices.get? i = some (matrices.getD i Mat4.identity) := by
  rw [List.get?_eq_getElem?, List.getD_eq_getElem?_getD, List.getElem?_eq_getElem hi]
  rfl

lemma fullWorld_rigid_fold (m : Mesh) (g : Graph) (surfaces : List Surface)
    (bb : AxisAlignedBoundingBox) (h : ∀ s ∈ surfaces, s.bones = []) :
    surfaces.foldl (fullWorldStep m g) (some bb)
      = some (surfaces.foldl (worldStep m) bb) := by
  induction surfaces generalizing bb with
  | nil => rfl
  | cons s rest ih =>
    have hs : s.bones = [] := h s (List.mem_cons_self s rest)
    rw [List.foldl_cons, List.foldl_cons,
      show fullWorldStep m g (some bb) s = some (worldStep m bb s) from by
        simp [fullWorldStep, hs]]
    exact ih _ (fun t ht => h t (List.mem_cons_of_mem s ht))

/-- C5: on a mesh all of whose surfaces are rigid (empty bone lists),
`full_world_bounding_box` succeeds and returns exactly the box of
`world_bounding_box`: every vertex position transformed by the mesh world
transform. -/
theorem claim_C5_rigid_full_equals_world (m : Mesh) (g : Graph)
    (h : ∀ s ∈ m.surfaces, s.bones = []) :
    m.full_world_bounding_box g = some m.world_bounding_box :=
  fullWorld_rigid_fold m g m.surfaces AxisAlignedBoundingBox.empty h

/-- Witness for C5 at a concrete rigid mesh under a translated world
transform. -/
theorem claim_C5_rigid_full_equals_world_witness :
    meshRigidMoved.full_world_bounding_box graphAB
        = some meshRigidMoved.world_bounding_box ∧
    meshRigidMoved.world_bounding_box
        = AxisAlignedBoundingBox.box ⟨8, 2, 3⟩ ⟨8, 2, 3⟩ :=
  ⟨claim_C5_rigid_full_equals_world meshRigidMoved graphAB (by decide),
   by norm_num [meshRigidMoved, Mesh.world_bounding_box, worldStep, surfA, vtxA,
     Mat4.translate, Mat4.transform_vector, AxisAlignedBoundingBox.add_point]⟩

lemma skinAccum_fold (matrices : List Mat4) (pos : Vec3) (l : List (ℕ × ℚ)) (a : Vec3)
    (h : ∀ p ∈ l, p.1 < matrices.length) :
    l.foldl (skinAccum matrices pos) (some a)
      = some (l.foldl
          (fun acc p =>
            acc + ((matrices.getD p.1 Mat4.identity).transform_vector pos).scale p.2)
          a) := by
  induction l generalizing a with
  | nil => rfl
  | cons p rest ih =>
    have hp : p.1 < matrices.length := h p (List.mem_cons_self p rest)
    rw [List.foldl_cons, List.foldl_cons,
      show skinAccum matrices pos (some a) p
          = some (a + ((matrices.getD p.1 Mat4.identity).transform_vector pos).scale p.2) from by
        simp only [skinAccum]
        rw [list_get?_getD matrices p.1 hp]]
    exact ih _ (fun q hq => h q (List.mem_cons_of_mem p hq))

lemma skinnedVertexPosition_valid (matrices : List Mat4) (v : Vertex)
    (h : ∀ i ∈ v.bone_indices, i < matrices.length) :
    skinnedVertexPosition matrices v = some (specSkinnedPosition matrices v) :=
  skinAccum_fold matrices v.position _ Vec3.ZERO
    (fun p hp => h p.1 (List.of_mem_zip hp).1)

lemma skinnedInsert_fold (matrices : List Mat4) (vs : List Vertex)
    (bb : AxisAlignedBoundingBox)
    (h : ∀ v ∈ vs, ∀ i ∈ v.bone_indices, i < matrices.length) :
    vs.foldl (skinnedInsert matrices) (some bb)
      = some (vs.foldl (fun bb v => bb.add_point (specSkinnedPosition matrices v)) bb) := by
  induction vs generalizing bb with
  | nil => rfl
  | cons v rest ih =>
    rw [List.foldl_cons, List.foldl_cons,
      show skinnedInsert matrices (some bb) v
          = some (bb.add_point (specSkinnedPosition matrices v)) from by
        simp [skinnedInsert,
          skinnedVertexPosition_valid matrices v (h v (List.mem_cons_self v rest))]]
    exact ih _ (fun t ht => h t (List.mem_cons_of_mem v ht))

lemma fullWorld_skinned_fold (m : Mesh) (g : Graph) (surfaces : List Surface)
    (bb : AxisAlignedBoundingBox)
    (hskin : ∀ s ∈ surfaces, s.bones ≠ [])
    (hvalid : ∀ s ∈ surfaces, BoneIndicesValid s) :
    surfaces.foldl (fullWorldStep m g) (some bb)
      = some (surfaces.foldl
          (fun bb s =>
            s.data.vertices.foldl
              (fun bb v => bb.add_point (specSkinnedPosition (skinMatrices g s.bones) v))
              bb)
          bb) := by
  induction surfaces generalizing bb with
  | nil => rfl
  | cons s rest ih =>
    have hs : s.bones.isEmpty = false := by
      simpa [List.isEmpty_iff] using hskin s (List.mem_cons_self s rest)
    have hv : BoneIndicesValid s := hvalid s (List.mem_cons_self s rest)
    have hlen : (skinMatrices g s.bones).length = s.bones.length := by
      simp [skinMatrices]
    rw [List.foldl_cons, List.foldl_cons,
      show fullWorldStep m g (some bb) s
          = s.data.vertices.foldl (skinnedInsert (skinMatrices g s.bones)) (some bb) from by
        simp [fullWorldStep, hs],
      skinnedInsert_fold _ _ _
        (fun v hv2 i hi => by rw [hlen]; exact hv v hv2 i hi)]
    exact ih _ (fun t ht => hskin t (List.mem_cons_of_mem s ht))
      (fun t ht => hvalid t (List.mem_cons_of_mem s ht))

/-- C2: on a mesh all of whose surfaces are skinned (non-empty bone lists,
indices in range), `full_world_bounding_box` returns the box obtained by
inserting, per vertex, the weighted sum over its (bone index, weight) pairs
of the per-surface precomputed skinning matrix (bone world transform composed
with the inverse bind pose) applied to the local position; the mesh's own
world transform never enters (replacing it changes nothing). -/
theorem claim_C2_skinned_full_world (m : Mesh) (g : Graph)
    (hskin : ∀ s ∈ m.surfaces, s.bones ≠ [])
    (hvalid : ∀ s ∈ m.surfaces, BoneIndicesValid s) :
    m.full_world_bounding_box g = some (specSkinnedBoundingBox m.surfaces g) ∧
    (∀ t : Mat4,
      Mesh.full_world_bounding_box { m with global_transform := t } g
        = m.full_world_bounding_box g) := by
  constructor
  · exact fullWorld_skinned_fold m g m.surfaces AxisAlignedBoundingBox.empty hskin hvalid
  · intro t
    have h1 := fullWorld_skinned_fold { m with global_transform := t } g m.surfaces
      AxisAlignedBoundingBox.empty hskin hvalid
    have h2 := fullWorld_skinned_fold m g m.surfaces
      AxisAlignedBoundingBox.empty hskin hvalid
    exact h1.trans h2.symm

/-- Witness for C2: the spec's skinning scenario: one vertex at the origin,
bone 0 at identity, bone 1 translated by (10,0,0), both weighted 1/2, blends
to (5,0,0); moving the mesh world transform changes nothing. -/
theorem claim_C2_skinned_full_world_witness :
    meshSkin.full_world_bounding_box graphAB
        = some (specSkinnedBoundingBox meshSkin.surfaces graphAB) ∧
    Mesh.full_world_bounding_box
        { meshSkin with global_transform := Mat4.translate ⟨100, 0, 0⟩ } graphAB
      = meshSkin.full_world_bounding_box graphAB ∧
    meshSkin.full_world_bounding_box graphAB
      = some (AxisAlignedBoundingBox.box ⟨5, 0, 0⟩ ⟨5, 0, 0⟩) :=
  ⟨(claim_C2_skinned_full_world meshSkin graphAB (by decide) (by decide)).1,
   (claim_C2_skinned_full_world meshSkin graphAB (by decide) (by decide)).2
     (Mat4.translate ⟨100, 0, 0⟩),
   by norm_num [Mesh.full_world_bounding_box, fullWorldStep, skinnedInsert,
     skinnedVertexPosition, skinAccum, skinMatrices, meshSkin, surfSkin, vtxSkin,
     graphAB, Mat4.mul, Mat4.transform_vector, Mat4.identity, Mat4.translate,
     Vec3.ZERO, Vec3.scale, Vec3.add_def, AxisAlignedBoundingBox.add_point]⟩

lemma fullWorld_fold_isSome (m : Mesh) (g : Graph) (surfaces : List Surface)
    (bb : AxisAlignedBoundingBox)
    (h : ∀ s ∈ surfaces, s.bones ≠ [] → BoneIndicesValid s) :
    (surfaces.foldl (fullWorldStep m g) (some bb)).isSome = true := by
  induction surfaces generalizing bb with
  | nil => rfl
  | cons s rest ih =>
    rw [List.foldl_cons]
    by_cases hs : s.bones.isEmpty
    · rw [show fullWorldStep m g (some bb) s = some (worldStep m bb s) from by
        simp [fullWorldStep, hs]]
      exact ih _ (fun t ht => h t (List.mem_cons_of_mem s ht))
    · have hv : BoneIndicesValid s := h s (List.mem_cons_self s rest)
        (by simpa [List.isEmpty_iff] using hs)
      have hs2 : s.bones.isEmpty = false := by simpa using hs
      have hlen : (skinMatrices g s.bones).length = s.bones.length := by
        simp [skinMatrices]
      rw [show fullWorldStep m g (some bb) s
          = s.data.vertices.foldl (skinnedInsert (skinMatrices g s.bones)) (some bb) from by
        simp [fullWorldStep, hs2],
        skinnedInsert_fold _ _ _ (fun v hv2 i hi => by rw [hlen]; exact hv v hv2 i hi)]
      exact ih _ (fun t ht => h t (List.mem_cons_of_mem s ht))

/-- C9: the skinned path indexes the precomputed matrix array with unchecked
vertex bone indices, so when every bone index of every vertex of every
skinned surface is below the length of that surface's bone list, the
computation never reaches the out-of-bounds branch: `full_world_bounding_box`
returns a value (is not the modelled panic `none`). -/
theorem claim_C9_bone_index_precondition (m : Mesh) (g : Graph)
    (h : ∀ s ∈ m.surfaces, s.bones ≠ [] → BoneIndicesValid s) :
    (m.full_world_bounding_box g).isSome = true :=
  fullWorld_fold_isSome m g m.surfaces AxisAlignedBoundingBox.empty h

/-- Witness for C9: a valid skinned mesh succeeds, and a mesh with an
out-of-range bone index reaches the modelled panic. -/
theorem claim_C9_bone_index_precondition_witness :
    (meshSkin.full_world_bounding_box graphAB).isSome = true ∧
    meshBad.full_world_bounding_box graphAB = none :=
  ⟨claim_C9_bone_index_precondition meshSkin graphAB (by decide), rfl⟩

lemma skinAccum_fold_zero (matrices : List Mat4) (pos : Vec3) (l : List (ℕ × ℚ)) (a : Vec3)
    (h : ∀ p ∈ l, p.1 < matrices.length ∧ p.2 = 0) :
    l.foldl (skinAccum matrices pos) (some a) = some a := by
  induction l generalizing a with
  | nil => rfl
  | cons p rest ih =>
    obtain ⟨hp, hw⟩ := h p (List.mem_cons_self p rest)
    rw [List.foldl_cons,
      show skinAccum matrices pos (some a) p = some a from by
        simp only [skinAccum]
        rw [list_get?_getD matrices p.1 hp, hw]
        simp [Vec3.scale_zero, Vec3.add_ZERO]]
    exact ih a (fun q hq => h q (List.mem_cons_of_mem p hq))

/-- C8: in the skinned path, a vertex whose zipped bone weights are all zero
(in particular one with empty index or weight lists) contributes the zero
vector to the box, not its local position: its blended position is (0,0,0)
and the box receives exactly that point. -/
theorem claim_C8_zero_weight_quirk (matrices : List Mat4) (v : Vertex)
    (bb : AxisAlignedBoundingBox)
    (h : ∀ p ∈ v.bone_indices.zip v.bone_weights, p.1 < matrices.length ∧ p.2 = 0) :
    skinnedVertexPosition matrices v = some Vec3.ZERO ∧
    skinnedInsert matrices (some bb) v = some (bb.add_point Vec3.ZERO) := by
  have h1 : skinnedVertexPosition matrices v = some Vec3.ZERO :=
    skinAccum_fold_zero matrices v.position _ Vec3.ZERO h
  refine ⟨h1, ?_⟩
  simp [skinnedInsert, h1]

/-- Witness for C8: a vertex at (5,5,5) with one zero weight, a vertex with
empty influence lists, and the resulting whole-mesh box pinned at the
origin. -/
theorem claim_C8_zero_weight_quirk_witness :
    (skinnedVertexPosition [Mat4.identity] vtxZeroW = some Vec3.ZERO ∧
     skinnedInsert [Mat4.identity] (some AxisAlignedBoundingBox.empty) vtxZeroW
       = some (AxisAlignedBoundingBox.empty.add_point Vec3.ZERO)) ∧
    skinnedVertexPosition [Mat4.identity] ⟨⟨5, 5, 5⟩, [], []⟩ = some Vec3.ZERO ∧
    meshZeroW.full_world_bounding_box graphAB
      = some (AxisAlignedBoundingBox.box Vec3.ZERO Vec3.ZERO) :=
  ⟨claim_C8_zero_weight_quirk [Mat4.identity] vtxZeroW AxisAlignedBoundingBox.empty
      (by decide),
   (claim_C8_zero_weight_quirk [Mat4.identity] ⟨⟨5, 5, 5⟩, [], []⟩
      AxisAlignedBoundingBox.empty (by decide)).1,
   by norm_num [Mesh.full_world_bounding_box, fullWorldStep, skinnedInsert,
     skinnedVertexPosition, skinAccum, skinMatrices, meshZeroW, surfZeroW, vtxZeroW,
     graphAB, Mat4.mul, Mat4.transform_vector, Mat4.identity, Vec3.ZERO, Vec3.scale,
     Vec3.add_def, AxisAlignedBoundingBox.add_point]⟩
